import Mathlib

/-
  Verification development for the Form_Modernization repository, a
  browser-based editor that overlays form fields onto PDF documents.

  The definitions below are shallow embeddings of the JavaScript source:
  - src/static/js/designpage_portfolio.js  (portfolio design editor)
  - src/static/js/designpage.js            (non-portfolio design page)
  - src/static/js/editpage_portfolio.js    (portfolio fill/edit page)

  JavaScript numbers are modelled as rationals; none of the embedded
  operations rely on floating-point rounding.  DOM objects are modelled by
  the data the code reads from them, passed as explicit parameters.
-/

/-! ## Data model

A field created by `addFormField` in designpage_portfolio.js carries the
properties listed there (id, name, type, x, y, width, height, page,
required, read_only, default_value). -/

structure PField where
  id : String
  name : String
  type : String
  x : ℚ
  y : ℚ
  width : ℚ
  height : ℚ
  page : Nat
  required : Bool
  read_only : Bool
  default_value : String
  deriving DecidableEq, Repr

/-- A field created by the pdfCanvas click handler in designpage.js:
`{ type, name, x, y, width, height, page, required, readonly, fontSize, selected }`. -/
structure DField where
  type : String
  name : String
  x : ℚ
  y : ℚ
  width : ℚ
  height : ℚ
  page : Nat
  required : Bool
  readonly : Bool
  fontSize : ℚ
  selected : Bool
  deriving DecidableEq, Repr

/-! ## designpage_portfolio.js -/

/-- The `fieldTypes` table of designpage_portfolio.js (lines 40-45): keys with
their default sizes.  The toolbar renders one button per key. -/
def fieldTypes : List (String × ℚ × ℚ) :=
  [("text", 200, 40), ("checkbox", 40, 40), ("signature", 200, 80), ("date", 200, 40)]

/-- Default width for a portfolio field type: `fieldTypes[type]?.defaultWidth || 200`. -/
def fieldTypeDefaultWidth (t : String) : ℚ :=
  match fieldTypes.find? (fun p => p.1 = t) with
  | some p => p.2.1
  | none => 200

/-- Default height for a portfolio field type: `fieldTypes[type]?.defaultHeight || 40`. -/
def fieldTypeDefaultHeight (t : String) : ℚ :=
  match fieldTypes.find? (fun p => p.1 = t) with
  | some p => p.2.2
  | none => 40

/-- `type.charAt(0).toUpperCase() + type.slice(1)` from addFormField. -/
def capitalizeFirst (s : String) : String :=
  match s.data with
  | [] => ""
  | c :: cs => String.mk (Char.toUpper c :: cs)

/-- The field object built by `addFormField(type, x, y, page)` in
designpage_portfolio.js (lines 968-1010).  `fieldId` stands for the
generated `field_${Date.now()}_${random}` string, and `count` for
`formFields.length` at the time of the call. -/
def portfolioNewField (t : String) (x y : ℚ) (page : Nat) (fieldId : String)
    (count : Nat) : PField :=
  { id := fieldId
    name := capitalizeFirst t ++ "_" ++ toString (count + 1)
    type := t
    x := x
    y := y
    width := fieldTypeDefaultWidth t
    height := fieldTypeDefaultHeight t
    page := page
    required := false
    read_only := false
    default_value := "" }

/-- `addFormField` pushes the new field onto `formFields`. -/
def addFormField (t : String) (x y : ℚ) (page : Nat) (fieldId : String)
    (formFields : List PField) : List PField :=
  formFields ++ [portfolioNewField t x y page fieldId formFields.length]

/-- State read and written by `handleOverlayClick` in designpage_portfolio.js. -/
structure PortfolioState where
  isPlacingField : Bool
  fieldTypeToAdd : Option String
  currentScale : ℚ
  currentPage : Nat
  formFields : List PField

/-- `handleOverlayClick(e)` (designpage_portfolio.js lines 588-612).
`cx`/`cy` are `e.clientX - rect.left` and `e.clientY - rect.top`; the
handler divides them by `currentScale`, adds the field on the current page
and leaves placement mode.  When not placing or no type is selected it
returns immediately. -/
def handleOverlayClick (st : PortfolioState) (cx cy : ℚ) (fieldId : String) :
    PortfolioState :=
  if !st.isPlacingField then st
  else
    match st.fieldTypeToAdd with
    | none => st
    | some t =>
      let x := cx / st.currentScale
      let y := cy / st.currentScale
      { st with
          formFields := addFormField t x y st.currentPage fieldId st.formFields
          fieldTypeToAdd := none
          isPlacingField := false }

/-- The canvas rectangle assigned to a field element by `renderFormFields`
(designpage_portfolio.js lines 473-545): left, top, width, height styles in
pixels, each the stored value times `currentScale`. -/
def renderedRect (f : PField) (scale : ℚ) : ℚ × ℚ × ℚ × ℚ :=
  (f.x * scale, f.y * scale, f.width * scale, f.height * scale)

/-- `renderFormFields(pageNumber)`: filters `formFields` to the current page
and positions one element per field. -/
def renderFormFields (formFields : List PField) (pageNumber : Nat) (scale : ℚ) :
    List (ℚ × ℚ × ℚ × ℚ) :=
  (formFields.filter (fun f => f.page = pageNumber)).map (fun f => renderedRect f scale)

/-- `updateSelectedField` (designpage_portfolio.js lines 710-737) writes the
name input and the required / read-only checkboxes back onto the active
field; nothing else changes. -/
def updateSelectedField (f : PField) (nameValue : String) (requiredChecked readonlyChecked : Bool) :
    PField :=
  { f with name := nameValue, required := requiredChecked, read_only := readonlyChecked }

/-- `deleteSelectedField` (designpage_portfolio.js lines 742-761): with no
active field it returns at once; otherwise it removes the first field whose
id equals the active field id (`findIndex` + `splice(i, 1)`). -/
def deleteSelectedField (formFields : List PField) (activeField : Option PField) :
    List PField :=
  match activeField with
  | none => formFields
  | some af =>
    match formFields.findIdx? (fun f => f.id = af.id) with
    | some i => formFields.eraseIdx i
    | none => formFields

/-! The JSON schema persisted by `saveForm` (designpage_portfolio.js lines
766-832).  Each field is mapped to an object literal with exactly the keys
written there; we model the literal as an ordered key/value list. -/

inductive JVal where
  | s (v : String)
  | q (v : ℚ)
  | n (v : Nat)
  | b (v : Bool)
  deriving DecidableEq, Repr

/-- The object literal built for one field inside `saveForm`:
name, type, x, y, width, height, page, required, default_value. -/
def savedFieldJSON (f : PField) : List (String × JVal) :=
  [("name", JVal.s f.name), ("type", JVal.s f.type),
   ("x", JVal.q f.x), ("y", JVal.q f.y),
   ("width", JVal.q f.width), ("height", JVal.q f.height),
   ("page", JVal.n f.page), ("required", JVal.b f.required),
   ("default_value", JVal.s f.default_value)]

/-- `schemaToSave.fields = formFields.map(...)` in `saveForm`. -/
def saveFormSchema (formFields : List PField) : List (List (String × JVal)) :=
  formFields.map savedFieldJSON

/-! ## designpage.js -/

/-- `isPointInField(x, y, field)` (designpage.js lines 527-532). -/
def isPointInField (x y : ℚ) (field : DField) : Bool :=
  decide (field.x ≤ x) && decide (x ≤ field.x + field.width) &&
  decide (field.y ≤ y) && decide (y ≤ field.y + field.height)

/-- `getFieldAtPosition(x, y)` (designpage.js lines 535-550): filter
`placedFields` to the current page, walk the filtered list from the back,
and return the position in `placedFields` of the first hit, else -1.  The
JS `findIndex(f => f === field)` compares object references, and every
element of `placedFields` is a distinct object, so it recovers the
position of the hit itself; we model that by carrying list positions
through the filter. -/
def getFieldAtPosition (placedFields : List DField) (pageNum : Nat) (x y : ℚ) :
    Int :=
  let currentPageFields :=
    placedFields.enum.filter (fun p => (p.2.page : Int) = (pageNum : Int) - 1)
  match currentPageFields.reverse.find? (fun p => isPointInField x y p.2) with
  | some p => (p.1 : Int)
  | none => -1

/-- `selectField(fieldIndex)` effect on `placedFields` (designpage.js):
field i becomes selected, all others deselected. -/
def selectFieldList (placedFields : List DField) (fieldIndex : Int) : List DField :=
  placedFields.enum.map (fun p => { p.2 with selected := ((p.1 : Int) = fieldIndex) })

/-- The new field object the pdfCanvas click handler builds
(designpage.js lines 719-743): default size 150 by 24, 20 by 20 for a
checkbox, 200 by 40 for a signature; page stored as `pageNum - 1`. -/
def designNewField (t : String) (fieldName : String) (x y : ℚ) (pageNum : Nat)
    (requiredChecked readonlyChecked : Bool) : DField :=
  let width : ℚ := if t = "checkbox" then 20 else if t = "signature" then 200 else 150
  let height : ℚ := if t = "checkbox" then 20 else if t = "signature" then 40 else 24
  { type := t
    name := fieldName
    x := x
    y := y
    width := width
    height := height
    page := pageNum - 1
    required := requiredChecked
    readonly := readonlyChecked
    fontSize := 12
    selected := true }

/-- State read and written by the pdfCanvas click handler in designpage.js. -/
structure DesignState where
  isDragging : Bool
  isResizing : Bool
  currentFieldType : Option String
  placedFields : List DField
  pageNum : Nat

/-- The pdfCanvas click handler (designpage.js lines 688-763).  `x`/`y` are
the click coordinates already mapped to canvas pixels
(`(clientX - rect.left) / rect.width * canvas.width`); note the handler
stores them in the field unchanged.  `fieldName` models the result of the
`fieldNameInput && fieldNameInput.value ? value : prompt(...)` chain, with
`none` for a falsy outcome (`if (!fieldName) return`).  During a drag or
resize, or with no field type selected, the state is unchanged; a click on
an existing field selects it instead of creating one. -/
def pdfCanvasClick (st : DesignState) (x y : ℚ) (fieldName : Option String)
    (requiredChecked readonlyChecked : Bool) (shiftKey : Bool) : DesignState :=
  if st.isDragging || st.isResizing then st
  else
    match st.currentFieldType with
    | none => st
    | some t =>
      let fieldIndex := getFieldAtPosition st.placedFields st.pageNum x y
      if fieldIndex ≠ -1 then
        { st with placedFields := selectFieldList st.placedFields fieldIndex }
      else
        match fieldName with
        | none => st
        | some nm =>
          if nm = "" then st
          else
            let newField := designNewField t nm x y st.pageNum requiredChecked readonlyChecked
            { st with
                placedFields :=
                  st.placedFields.map (fun f => { f with selected := false }) ++ [newField]
                currentFieldType := if shiftKey then st.currentFieldType else none }

/-- The rectangle `drawFieldOverlay(ctx, field)` strokes on the canvas
(designpage.js lines 438-480): `field.x, field.y, field.width, field.height`
with no scale factor applied. -/
def drawFieldOverlayRect (field : DField) : ℚ × ℚ × ℚ × ℚ :=
  (field.x, field.y, field.width, field.height)

/-- The mousemove drag branch (designpage.js lines 880-893):
`field.x = originalX + (x - startX)`, `field.y = originalY + (y - startY)`. -/
def dragField (f : DField) (originalX originalY startX startY x y : ℚ) : DField :=
  { f with x := originalX + (x - startX), y := originalY + (y - startY) }

/-- The mousemove resize branch (designpage.js lines 852-877), for a resize
direction drawn from e/w/s/n compounds; minimum size 20 on each axis. -/
def resizeField (f : DField) (dir : String)
    (originalX originalY originalWidth originalHeight startX startY x y : ℚ) : DField :=
  let deltaX := x - startX
  let deltaY := y - startY
  let f1 :=
    if dir.contains 'e' then { f with width := max 20 (originalWidth + deltaX) }
    else if dir.contains 'w' then
      let newWidth := max 20 (originalWidth - deltaX)
      { f with x := originalX + (originalWidth - newWidth), width := newWidth }
    else f
  if dir.contains 's' then { f1 with height := max 20 (originalHeight + deltaY) }
  else if dir.contains 'n' then
    let newHeight := max 20 (originalHeight - deltaY)
    { f1 with y := originalY + (originalHeight - newHeight), height := newHeight }
  else f1

/-- Arrow-key movement (designpage.js keydown handler, lines 1596-1630):
x or y shifted by 1, or by 10 with shift held. -/
def arrowMoveField (f : DField) (dx dy : ℚ) : DField :=
  { f with x := f.x + dx, y := f.y + dy }

/-- Ctrl+V paste (designpage.js lines 1641-1660): deep copy of the copied
field with name suffixed `_copy`, offset by 20, placed on the current page
and selected. -/
def pasteField (copiedField : DField) (pageNum : Nat) : DField :=
  { copiedField with
      name := copiedField.name ++ "_copy"
      x := copiedField.x + 20
      y := copiedField.y + 20
      page := pageNum - 1
      selected := true }

/-- The property-panel handlers installed by `updateFieldPropertiesPanel`
(designpage.js lines 592-609): name input writes `field.name`, the
checkboxes write `field.required` and `field.readonly`. -/
def designUpdateProps (f : DField) (nameValue : String)
    (requiredChecked readonlyChecked : Bool) : DField :=
  { f with name := nameValue, required := requiredChecked, readonly := readonlyChecked }

/-! ### savePDFWithFields (designpage.js lines 1091-1195) -/

/-- The geometry passed to `addToPage` for one field inside
`savePDFWithFields`: the switch creates an AcroForm field for the four
types text, number, checkbox and signature, always at
`x: field.x, y: pageHeight - field.y - field.height, width, height`;
other types fall through the switch and create nothing. -/
def placeFieldOnPage (pageHeight : ℚ) (field : DField) : Option (ℚ × ℚ × ℚ × ℚ) :=
  let pdfY := pageHeight - field.y - field.height
  match field.type with
  | "text" => some (field.x, pdfY, field.width, field.height)
  | "number" => some (field.x, pdfY, field.width, field.height)
  | "checkbox" => some (field.x, pdfY, field.width, field.height)
  | "signature" => some (field.x, pdfY, field.width, field.height)
  | _ => none

/-- The `fieldsByPage` object built in `savePDFWithFields`: one bucket per
page index, with the page fields in push order.  `Object.entries` iterates
integer-like keys in ascending order, so the distinct pages are sorted. -/
def fieldsByPage (placedFields : List DField) : List (Nat × List DField) :=
  let pages := ((placedFields.map (fun f => f.page)).dedup).mergeSort (fun a b => a ≤ b)
  pages.map (fun p => (p, placedFields.filter (fun f => f.page = p)))

/-- The AcroForm placements `savePDFWithFields` performs: buckets whose page
index is at least the page count are skipped with a warning; every other
bucket has each of its fields added to that page.  `pageHeights p` models
`pdfLibDoc.getPage(p).getHeight()`. -/
def savePDFWithFields (numberOfPages : Nat) (pageHeights : Nat → ℚ)
    (placedFields : List DField) : List (Nat × (ℚ × ℚ × ℚ × ℚ)) :=
  (fieldsByPage placedFields).flatMap (fun bucket =>
    if bucket.1 ≥ numberOfPages then []
    else bucket.2.filterMap (fun f =>
      (placeFieldOnPage (pageHeights bucket.1) f).map (fun r => (bucket.1, r))))

/-! ## editpage_portfolio.js -/

/-- One entry of `portfolioEditor.fieldInputs`: either the wrapper object
stored for a signature pad (`{ type: 'signature', ..., getValue: () =>
signaturePad.toDataURL() }`, modelled by the data URL it returns) or a DOM
input element with its `type`, `checked` and `value` properties. -/
structure FieldInput where
  type : String
  checked : Bool
  value : String
  dataURL : String
  deriving DecidableEq, Repr

/-- A collected form value: `input.checked` is a boolean, the other two
branches produce strings. -/
inductive FormValue where
  | b (v : Bool)
  | s (v : String)
  deriving DecidableEq, Repr

/-- `portfolioEditor.collectFormValues` (editpage_portfolio.js lines
1091-1111): for each field name, a null input produces nothing; a
signature input contributes `getValue()` (the pad data URL), a checkbox
its `checked` flag, and anything else its `value`. -/
def collectFormValues (fieldInputs : List (String × Option FieldInput)) :
    List (String × FormValue) :=
  fieldInputs.filterMap (fun entry =>
    match entry.2 with
    | none => none
    | some input =>
      if input.type = "signature" then some (entry.1, FormValue.s input.dataURL)
      else if input.type = "checkbox" then some (entry.1, FormValue.b input.checked)
      else some (entry.1, FormValue.s input.value))

/-! ## Specification-side definitions -/

/-- The type vocabulary of the field descriptor in the specification:
text, checkbox, signature, date, number, radiobutton, combobox, listbox. -/
def specFieldTypes : List String :=
  ["text", "checkbox", "signature", "date", "number", "radiobutton", "combobox", "listbox"]

/-- The field types selectable from the portfolio toolbar: one button per
key of `fieldTypes` (designpage_portfolio.js lines 160-170). -/
def portfolioSelectableTypes : List String := fieldTypes.map (fun p => p.1)

/-- The field types selectable in designpage.js: the four toolbar buttons
wire `selectFieldType` with these strings (lines 956-959). -/
def designSelectableTypes : List String := ["text", "signature", "checkbox", "number"]

/-! ## Claims -/

/-- C2: when saving the PDF, every placed field rectangle is translated
from canvas space (origin top-left) to PDF user space (origin
bottom-left): the field is added at x unchanged and y equal to
pageHeight - field.y - field.height, with width and height unchanged.
The hypothesis restricts to the four field types the save switch (and the
design page UI) handles. -/
theorem c2_save_translates_to_pdf_user_space (pageHeight : ℚ) (f : DField)
    (h : f.type = "text" ∨ f.type = "number" ∨ f.type = "checkbox" ∨ f.type = "signature") :
    placeFieldOnPage pageHeight f =
      some (f.x, pageHeight - f.y - f.height, f.width, f.height) := by
  rcases h with h | h | h | h <;> simp [placeFieldOnPage, h]

theorem c2_save_translates_to_pdf_user_space_witness :
    placeFieldOnPage 792
      { type := "text", name := "n1", x := 10, y := 20, width := 150, height := 24,
        page := 0, required := false, readonly := false, fontSize := 12, selected := true } =
      some (10, 792 - 20 - 24, 150, 24) :=
  c2_save_translates_to_pdf_user_space 792 _ (Or.inl rfl)

/-- C5: a click on the PDF canvas or overlay never creates a new field
unless a field type is currently selected: whenever no field type is
selected (or, in the portfolio editor, the placing flag is down), the
placed-fields list is unchanged by a click, in both editors. -/
theorem c5_click_without_selected_type_changes_nothing :
    (∀ (st : PortfolioState) (cx cy : ℚ) (fid : String),
        st.fieldTypeToAdd = none ∨ st.isPlacingField = false →
        (handleOverlayClick st cx cy fid).formFields = st.formFields)
  ∧ (∀ (st : DesignState) (x y : ℚ) (nm : Option String) (rq ro sk : Bool),
        st.currentFieldType = none →
        (pdfCanvasClick st x y nm rq ro sk).placedFields = st.placedFields) := by
  constructor
  · intro st cx cy fid h
    rcases h with h | h
    · unfold handleOverlayClick
      cases hb : st.isPlacingField <;> simp [h]
    · simp [handleOverlayClick, h]
  · intro st x y nm rq ro sk h
    unfold pdfCanvasClick
    cases hb : (st.isDragging || st.isResizing) <;> simp [h]

theorem c5_click_without_selected_type_changes_nothing_witness :
    (handleOverlayClick
        { isPlacingField := true, fieldTypeToAdd := none, currentScale := 1,
          currentPage := 1, formFields := [] } 3 4 "fid").formFields = [] ∧
    (pdfCanvasClick
        { isDragging := false, isResizing := false, currentFieldType := none,
          placedFields := [], pageNum := 1 } 1 2 none false false false).placedFields = [] :=
  ⟨c5_click_without_selected_type_changes_nothing.1 _ 3 4 "fid" (Or.inl rfl),
   c5_click_without_selected_type_changes_nothing.2 _ 1 2 none false false false rfl⟩

/-- C6: every field type selectable in either editor lies in the
specification vocabulary text, checkbox, signature, date, number,
radiobutton, combobox, listbox; creating a field with a selected type
produces a field of exactly that type, and no subsequent operation
(property edits, drag, resize, arrow moves, paste) changes a field type. -/
theorem c6_field_types_stay_in_spec_vocabulary :
    (∀ t ∈ portfolioSelectableTypes, ∀ (x y : ℚ) (page : Nat) (fid : String) (k : Nat),
        (portfolioNewField t x y page fid k).type = t ∧ t ∈ specFieldTypes)
  ∧ (∀ t ∈ designSelectableTypes, ∀ (nm : String) (x y : ℚ) (pageNum : Nat) (rq ro : Bool),
        (designNewField t nm x y pageNum rq ro).type = t ∧ t ∈ specFieldTypes)
  ∧ (∀ (f : PField) (nm : String) (rq ro : Bool), (updateSelectedField f nm rq ro).type = f.type)
  ∧ (∀ (f : DField) (nm : String) (rq ro : Bool), (designUpdateProps f nm rq ro).type = f.type)
  ∧ (∀ (f : DField) (oX oY sX sY x y : ℚ), (dragField f oX oY sX sY x y).type = f.type)
  ∧ (∀ (f : DField) (dir : String) (oX oY oW oH sX sY x y : ℚ),
        (resizeField f dir oX oY oW oH sX sY x y).type = f.type)
  ∧ (∀ (f : DField) (dx dy : ℚ), (arrowMoveField f dx dy).type = f.type)
  ∧ (∀ (f : DField) (pageNum : Nat), (pasteField f pageNum).type = f.type) := by
  refine ⟨?_, ?_, ?_, ?_, ?_, ?_, ?_, ?_⟩
  · intro t ht x y page fid k
    refine ⟨rfl, ?_⟩
    simp only [portfolioSelectableTypes, fieldTypes, List.map_cons, List.map_nil,
      List.mem_cons, List.not_mem_nil, or_false] at ht
    rcases ht with h | h | h | h <;> (subst h; simp [specFieldTypes])
  · intro t ht nm x y pageNum rq ro
    refine ⟨rfl, ?_⟩
    simp only [designSelectableTypes, List.mem_cons, List.not_mem_nil, or_false] at ht
    rcases ht with h | h | h | h <;> (subst h; simp [specFieldTypes])
  · intro f nm rq ro; rfl
  · intro f nm rq ro; rfl
  · intro f oX oY sX sY x y; rfl
  · intro f dir oX oY oW oH sX sY x y
    unfold resizeField
    dsimp only
    split_ifs <;> rfl
  · intro f dx dy; rfl
  · intro f pageNum; rfl

theorem c6_field_types_stay_in_spec_vocabulary_witness :
    ((portfolioNewField "text" 1 2 1 "fid" 0).type = "text" ∧ "text" ∈ specFieldTypes) ∧
    ((designNewField "number" "n" 1 2 1 false false).type = "number" ∧
      "number" ∈ specFieldTypes) :=
  ⟨c6_field_types_stay_in_spec_vocabulary.1 "text" (by simp [portfolioSelectableTypes, fieldTypes])
      1 2 1 "fid" 0,
   c6_field_types_stay_in_spec_vocabulary.2.1 "number" (by simp [designSelectableTypes])
      "n" 1 2 1 false false⟩

/-- C7: a field carries a single page property set at creation time
(pageNum - 1 in designpage.js, the current page argument in the portfolio
editor); move, resize, rename and the required / read-only toggles leave
the page unchanged, and paste assigns the pasted copy the current page. -/
theorem c7_page_fixed_at_creation_and_preserved :
    (∀ (t nm : String) (x y : ℚ) (pageNum : Nat) (rq ro : Bool),
        (designNewField t nm x y pageNum rq ro).page = pageNum - 1)
  ∧ (∀ (t : String) (x y : ℚ) (page : Nat) (fid : String) (k : Nat),
        (portfolioNewField t x y page fid k).page = page)
  ∧ (∀ (f : DField) (oX oY sX sY x y : ℚ), (dragField f oX oY sX sY x y).page = f.page)
  ∧ (∀ (f : DField) (dir : String) (oX oY oW oH sX sY x y : ℚ),
        (resizeField f dir oX oY oW oH sX sY x y).page = f.page)
  ∧ (∀ (f : DField) (dx dy : ℚ), (arrowMoveField f dx dy).page = f.page)
  ∧ (∀ (f : DField) (nm : String) (rq ro : Bool), (designUpdateProps f nm rq ro).page = f.page)
  ∧ (∀ (f : PField) (nm : String) (rq ro : Bool), (updateSelectedField f nm rq ro).page = f.page)
  ∧ (∀ (f : DField) (pageNum : Nat), (pasteField f pageNum).page = pageNum - 1) := by
  refine ⟨?_, ?_, ?_, ?_, ?_, ?_, ?_, ?_⟩
  · intro t nm x y pageNum rq ro; rfl
  · intro t x y page fid k; rfl
  · intro f oX oY sX sY x y; rfl
  · intro f dir oX oY oW oH sX sY x y
    unfold resizeField
    dsimp only
    split_ifs <;> rfl
  · intro f dx dy; rfl
  · intro f nm rq ro; rfl
  · intro f nm rq ro; rfl
  · intro f pageNum; rfl

/-- The value the C8 claim expects for one field input: the checked state
for a checkbox, the pad data URL for a signature, the text value
otherwise. -/
def claimedFormValue (input : FieldInput) : FormValue :=
  if input.type = "checkbox" then FormValue.b input.checked
  else if input.type = "signature" then FormValue.s input.dataURL
  else FormValue.s input.value

/-- C8: collectFormValues collects one value per overlaid field input,
keyed by the field name: the checked state for checkboxes, the signature
pad data URL for signatures, the text value for everything else, and it
produces no other entries. -/
theorem c8_collect_one_value_per_field_input
    (fieldInputs : List (String × Option FieldInput)) :
    (∀ (nm : String) (input : FieldInput), (nm, some input) ∈ fieldInputs →
        (nm, claimedFormValue input) ∈ collectFormValues fieldInputs)
  ∧ (∀ e ∈ collectFormValues fieldInputs,
        ∃ input : FieldInput, (e.1, some input) ∈ fieldInputs ∧
          e.2 = claimedFormValue input) := by
  constructor
  · intro nm input hmem
    rw [collectFormValues, List.mem_filterMap]
    refine ⟨(nm, some input), hmem, ?_⟩
    by_cases hsig : input.type = "signature"
    · simp [claimedFormValue, hsig]
    · by_cases hcb : input.type = "checkbox"
      · simp [claimedFormValue, hsig, hcb]
      · simp [claimedFormValue, hsig, hcb]
  · intro e he
    rw [collectFormValues, List.mem_filterMap] at he
    obtain ⟨⟨nm, oi⟩, ha, hfa⟩ := he
    cases oi with
    | none => simp at hfa
    | some input =>
      refine ⟨input, ?_⟩
      simp only at hfa
      by_cases hsig : input.type = "signature"
      · rw [if_pos hsig] at hfa
        cases hfa
        exact ⟨ha, by simp [claimedFormValue, hsig]⟩
      · rw [if_neg hsig] at hfa
        by_cases hcb : input.type = "checkbox"
        · rw [if_pos hcb] at hfa
          cases hfa
          exact ⟨ha, by simp [claimedFormValue, hcb]⟩
        · rw [if_neg hcb] at hfa
          cases hfa
          exact ⟨ha, by simp [claimedFormValue, hcb, hsig]⟩

theorem c8_collect_one_value_per_field_input_witness :
    ("sig1", claimedFormValue
        { type := "signature", checked := false, value := "", dataURL := "data-url-1" }) ∈
      collectFormValues
        [("sig1", some { type := "signature", checked := false, value := "", dataURL := "data-url-1" }),
         ("agree", some { type := "checkbox", checked := true, value := "on", dataURL := "" })] :=
  (c8_collect_one_value_per_field_input _).1 "sig1" _ (by simp)

/-- C10: deleting the selected field removes exactly the field whose id
matches the active field and nothing else; when no field is active the
list is unchanged.  The index hypothesis states that the matching id
occurs at position i and nowhere else. -/
theorem c10_delete_removes_exactly_the_active_field :
    (∀ formFields : List PField, deleteSelectedField formFields none = formFields)
  ∧ (∀ (formFields : List PField) (af : PField) (i : Nat) (hi : i < formFields.length),
        (formFields.get ⟨i, hi⟩).id = af.id →
        (∀ (j : Nat) (hj : j < formFields.length), j ≠ i →
            (formFields.get ⟨j, hj⟩).id ≠ af.id) →
        deleteSelectedField formFields (some af) =
          formFields.take i ++ formFields.drop (i + 1)) := by
  constructor
  · intro formFields; rfl
  · intro formFields af i hi hid huniq
    have hfind : formFields.findIdx? (fun f => f.id = af.id) = some i := by
      rw [List.findIdx?_eq_some_iff_getElem]
      refine ⟨hi, by simpa using hid, ?_⟩
      intro j hji
      have hj : j < formFields.length := Nat.lt_trans hji hi
      have := huniq j hj (Nat.ne_of_lt hji)
      simpa using this
    simp only [deleteSelectedField, hfind]
    exact List.eraseIdx_eq_take_drop_succ formFields i

theorem c10_delete_removes_exactly_the_active_field_witness :
    deleteSelectedField
      [{ id := "a", name := "A", type := "text", x := 1, y := 2, width := 3, height := 4,
         page := 1, required := false, read_only := false, default_value := "" },
       { id := "b", name := "B", type := "date", x := 5, y := 6, width := 7, height := 8,
         page := 2, required := true, read_only := false, default_value := "" }]
      (some { id := "b", name := "B", type := "date", x := 5, y := 6, width := 7, height := 8,
              page := 2, required := true, read_only := false, default_value := "" }) =
    [{ id := "a", name := "A", type := "text", x := 1, y := 2, width := 3, height := 4,
       page := 1, required := false, read_only := false, default_value := "" }] := by
  have h := c10_delete_removes_exactly_the_active_field.2
    [{ id := "a", name := "A", type := "text", x := 1, y := 2, width := 3, height := 4,
       page := 1, required := false, read_only := false, default_value := "" },
     { id := "b", name := "B", type := "date", x := 5, y := 6, width := 7, height := 8,
       page := 2, required := true, read_only := false, default_value := "" }]
    { id := "b", name := "B", type := "date", x := 5, y := 6, width := 7, height := 8,
      page := 2, required := true, read_only := false, default_value := "" }
    1 (by decide) (by decide) ?_
  · simpa using h
  · intro j hj hne
    have hj2 : j < 2 := by simpa using hj
    interval_cases j
    · simp
    · exact absurd rfl hne

/-- C3 counterexample: the schema entry persisted for a field does not
carry the id, read_only or options keys, although the in-memory field has
id and read_only properties.  This refutes the claim that every property
of the field descriptor is preserved. -/
theorem c3_counterexample_saved_entry_drops_keys :
    ∃ entry,
      saveFormSchema
        [{ id := "field_17", name := "A", type := "text", x := 1, y := 2, width := 3,
           height := 4, page := 1, required := false, read_only := true,
           default_value := "" }] = [entry] ∧
      "id" ∉ entry.map Prod.fst ∧
      "read_only" ∉ entry.map Prod.fst ∧
      "options" ∉ entry.map Prod.fst := by
  refine ⟨_, rfl, ?_, ?_, ?_⟩ <;> simp [savedFieldJSON]

/-- C3 amended: the schema persisted by saveForm contains exactly one
entry per placed field, and each entry carries exactly the keys name,
type, x, y, width, height, page, required and default_value with the
values of the corresponding field; id, read_only and options are not
persisted. -/
theorem c3_amended_schema_one_entry_per_field (formFields : List PField) :
    (saveFormSchema formFields).length = formFields.length ∧
    ∀ (i : Nat) (hi : i < formFields.length),
      ∃ entry, (saveFormSchema formFields)[i]? = some entry ∧
        entry.map Prod.fst =
          ["name", "type", "x", "y", "width", "height", "page", "required",
           "default_value"] ∧
        entry.lookup "name" = some (JVal.s (formFields.get ⟨i, hi⟩).name) ∧
        entry.lookup "type" = some (JVal.s (formFields.get ⟨i, hi⟩).type) ∧
        entry.lookup "x" = some (JVal.q (formFields.get ⟨i, hi⟩).x) ∧
        entry.lookup "y" = some (JVal.q (formFields.get ⟨i, hi⟩).y) ∧
        entry.lookup "width" = some (JVal.q (formFields.get ⟨i, hi⟩).width) ∧
        entry.lookup "height" = some (JVal.q (formFields.get ⟨i, hi⟩).height) ∧
        entry.lookup "page" = some (JVal.n (formFields.get ⟨i, hi⟩).page) ∧
        entry.lookup "required" = some (JVal.b (formFields.get ⟨i, hi⟩).required) ∧
        entry.lookup "default_value" =
          some (JVal.s (formFields.get ⟨i, hi⟩).default_value) := by
  constructor
  · simp [saveFormSchema]
  · intro i hi
    refine ⟨savedFieldJSON (formFields.get ⟨i, hi⟩), ?_, ?_⟩
    · rw [saveFormSchema, List.getElem?_map]
      simp [List.getElem?_eq_getElem hi]
    · simp [savedFieldJSON, List.lookup]

theorem c3_amended_schema_one_entry_per_field_witness :
    (saveFormSchema
        [{ id := "field_17", name := "A", type := "text", x := 1, y := 2, width := 3,
           height := 4, page := 1, required := false, read_only := true,
           default_value := "" }]).length = 1 ∧
    ∃ entry,
      (saveFormSchema
        [{ id := "field_17", name := "A", type := "text", x := 1, y := 2, width := 3,
           height := 4, page := 1, required := false, read_only := true,
           default_value := "" }])[0]? = some entry ∧
      entry.lookup "name" = some (JVal.s "A") := by
  have h1 := (c3_amended_schema_one_entry_per_field
    [{ id := "field_17", name := "A", type := "text", x := 1, y := 2, width := 3,
       height := 4, page := 1, required := false, read_only := true,
       default_value := "" }]).1
  have h2 := (c3_amended_schema_one_entry_per_field
    [{ id := "field_17", name := "A", type := "text", x := 1, y := 2, width := 3,
       height := 4, page := 1, required := false, read_only := true,
       default_value := "" }]).2 0 (by norm_num)
  obtain ⟨entry, he, _, hname, _⟩ := h2
  exact ⟨by simpa using h1, entry, he, by simpa using hname⟩

/-- C1 counterexample: the non-portfolio design page does not divide click
coordinates by the zoom scale.  Its canvas is rendered at scale 1.2, yet a
click at canvas x 12 while placing a text field stores x = 12, not
12 / 1.2 = 10. -/
theorem c1_counterexample_designpage_does_not_unscale :
    ∃ f, (pdfCanvasClick
        { isDragging := false, isResizing := false, currentFieldType := some "text",
          placedFields := [], pageNum := 1 } 12 9 (some "f1") false false false).placedFields
        = [f] ∧ f.x = 12 ∧ ¬ f.x = 12 / (6 / 5) := by
  refine ⟨designNewField "text" "f1" 12 9 1 false false, ?_, rfl, ?_⟩
  · simp [pdfCanvasClick, getFieldAtPosition]
  · show ¬ (12 : ℚ) = 12 / (6 / 5)
    norm_num

/-- C1 amended: in the portfolio design editor, a click at canvas position
(cx, cy) while placing a field at zoom scale s stores coordinates
(cx / s, cy / s), and rendering multiplies every stored rectangle by s, so
the stored position re-projects to the click point.  The non-portfolio
design page instead stores the canvas-pixel coordinates unchanged and
draws them unchanged (no scale factor in either direction). -/
theorem c1_amended_coordinate_spaces :
    (∀ (st : PortfolioState) (cx cy : ℚ) (fid t : String),
        st.isPlacingField = true → st.fieldTypeToAdd = some t →
        ¬ st.currentScale = 0 →
        ∃ f, (handleOverlayClick st cx cy fid).formFields = st.formFields ++ [f] ∧
          f.x = cx / st.currentScale ∧ f.y = cy / st.currentScale ∧
          renderedRect f st.currentScale =
            (cx, cy, f.width * st.currentScale, f.height * st.currentScale))
  ∧ (∀ (formFields : List PField) (pageNumber : Nat) (s : ℚ) (f : PField),
        f ∈ formFields → f.page = pageNumber →
        (f.x * s, f.y * s, f.width * s, f.height * s) ∈
          renderFormFields formFields pageNumber s)
  ∧ (∀ (st : DesignState) (x y : ℚ) (nm : String) (rq ro sk : Bool) (t : String),
        st.isDragging = false → st.isResizing = false →
        st.currentFieldType = some t →
        getFieldAtPosition st.placedFields st.pageNum x y = -1 →
        ¬ nm = "" →
        ∃ f, (pdfCanvasClick st x y (some nm) rq ro sk).placedFields =
              st.placedFields.map (fun g => { g with selected := false }) ++ [f] ∧
            f.x = x ∧ f.y = y ∧ drawFieldOverlayRect f = (f.x, f.y, f.width, f.height)) := by
  refine ⟨?_, ?_, ?_⟩
  · intro st cx cy fid t hplacing htype hs
    refine ⟨portfolioNewField t (cx / st.currentScale) (cy / st.currentScale)
        st.currentPage fid st.formFields.length, ?_, rfl, rfl, ?_⟩
    · simp [handleOverlayClick, hplacing, htype, addFormField]
    · simp only [renderedRect, portfolioNewField]
      rw [div_mul_cancel₀ _ hs, div_mul_cancel₀ _ hs]
  · intro formFields pageNumber s f hf hpage
    rw [renderFormFields, List.mem_map]
    exact ⟨f, List.mem_filter.mpr ⟨hf, by simp [hpage]⟩, rfl⟩
  · intro st x y nm rq ro sk t hdrag hresize htype hpos hnm
    refine ⟨designNewField t nm x y st.pageNum rq ro, ?_, rfl, rfl, rfl⟩
    simp [pdfCanvasClick, hdrag, hresize, htype, hpos, hnm]

theorem c1_amended_coordinate_spaces_witness :
    (∃ f, (handleOverlayClick
        { isPlacingField := true, fieldTypeToAdd := some "text", currentScale := 2,
          currentPage := 1, formFields := [] } 12 9 "fid").formFields = [] ++ [f] ∧
      f.x = 12 / 2 ∧ f.y = 9 / 2 ∧
      renderedRect f 2 = (12, 9, f.width * 2, f.height * 2)) ∧
    (∃ f, (pdfCanvasClick
        { isDragging := false, isResizing := false, currentFieldType := some "text",
          placedFields := [], pageNum := 1 } 12 9 (some "f1") false false false).placedFields
        = [] ++ [f] ∧ f.x = 12 ∧ f.y = 9 ∧
        drawFieldOverlayRect f = (f.x, f.y, f.width, f.height)) := by
  constructor
  · have h := c1_amended_coordinate_spaces.1
      { isPlacingField := true, fieldTypeToAdd := some "text", currentScale := 2,
        currentPage := 1, formFields := [] } 12 9 "fid" "text" rfl rfl (by norm_num)
    simpa using h
  · have h := c1_amended_coordinate_spaces.2.2
      { isDragging := false, isResizing := false, currentFieldType := some "text",
        placedFields := [], pageNum := 1 } 12 9 "f1" false false false "text"
      rfl rfl rfl (by simp [getFieldAtPosition]) (by decide)
    simpa using h

/-- C9: savePDFWithFields never adds a field to a nonexistent page.  Every
placement it performs targets a page index below the page count; every
placed field whose page is in range (and whose type the save switch
handles) still gets its AcroForm placement; and no placement at all is
produced for a field whose page index is out of range. -/
theorem c9_save_skips_nonexistent_pages (numberOfPages : Nat) (pageHeights : Nat → ℚ)
    (placedFields : List DField) :
    (∀ e ∈ savePDFWithFields numberOfPages pageHeights placedFields,
        e.1 < numberOfPages)
  ∧ (∀ f ∈ placedFields, f.page < numberOfPages →
        ∀ r, placeFieldOnPage (pageHeights f.page) f = some r →
          (f.page, r) ∈ savePDFWithFields numberOfPages pageHeights placedFields)
  ∧ (∀ f ∈ placedFields, numberOfPages ≤ f.page →
        ∀ r, (f.page, r) ∉ savePDFWithFields numberOfPages pageHeights placedFields) := by
  have hout : ∀ e ∈ savePDFWithFields numberOfPages pageHeights placedFields,
      e.1 < numberOfPages := by
    intro e he
    rw [savePDFWithFields, List.mem_flatMap] at he
    obtain ⟨bucket, _, he⟩ := he
    by_cases hge : bucket.1 ≥ numberOfPages
    · rw [if_pos hge] at he
      simp at he
    · rw [if_neg hge] at he
      rw [List.mem_filterMap] at he
      obtain ⟨f, _, hfa⟩ := he
      rcases Option.map_eq_some'.mp hfa with ⟨r, _, rfl⟩
      exact lt_of_not_ge hge
  refine ⟨hout, ?_, ?_⟩
  · intro f hf hlt r hr
    rw [savePDFWithFields, List.mem_flatMap]
    refine ⟨(f.page, placedFields.filter (fun g => g.page = f.page)), ?_, ?_⟩
    · rw [fieldsByPage]
      refine List.mem_map.mpr ⟨f.page, ?_, rfl⟩
      exact List.mem_mergeSort.mpr
        (List.mem_dedup.mpr (List.mem_map_of_mem (fun g => g.page) hf))
    · rw [if_neg (by omega)]
      rw [List.mem_filterMap]
      exact ⟨f, List.mem_filter.mpr ⟨hf, by simp⟩, by rw [hr]; rfl⟩
  · intro f _ hge r hmem
    have := hout (f.page, r) hmem
    omega

theorem c9_save_skips_nonexistent_pages_witness :
    (0, ((10 : ℚ), 792 - 20 - 24, 150, 24)) ∈
      savePDFWithFields 1 (fun _ => 792)
        [{ type := "text", name := "in", x := 10, y := 20, width := 150, height := 24,
           page := 0, required := false, readonly := false, fontSize := 12,
           selected := false },
         { type := "text", name := "out", x := 1, y := 2, width := 3, height := 4,
           page := 3, required := false, readonly := false, fontSize := 12,
           selected := false }] ∧
    ∀ r, (3, r) ∉
      savePDFWithFields 1 (fun _ => 792)
        [{ type := "text", name := "in", x := 10, y := 20, width := 150, height := 24,
           page := 0, required := false, readonly := false, fontSize := 12,
           selected := false },
         { type := "text", name := "out", x := 1, y := 2, width := 3, height := 4,
           page := 3, required := false, readonly := false, fontSize := 12,
           selected := false }] := by
  constructor
  · exact (c9_save_skips_nonexistent_pages 1 (fun _ => 792) _).2.1
      { type := "text", name := "in", x := 10, y := 20, width := 150, height := 24,
        page := 0, required := false, readonly := false, fontSize := 12,
        selected := false }
      (by simp) (by norm_num) ((10 : ℚ), 792 - 20 - 24, 150, 24) rfl
  · exact (c9_save_skips_nonexistent_pages 1 (fun _ => 792) _).2.2
      { type := "text", name := "out", x := 1, y := 2, width := 3, height := 4,
        page := 3, required := false, readonly := false, fontSize := 12,
        selected := false } (by simp) (by norm_num)

/-! ## C4: z-order at click time -/

/-- Whether the field at position i is on the current page and contains
the click point (used to state the C4 claim over indices). -/
def hitAt (fields : List DField) (pageNum : Nat) (x y : ℚ) (i : Nat) : Bool :=
  match fields[i]? with
  | some f => decide ((f.page : Int) = (pageNum : Int) - 1) && isPointInField x y f
  | none => false

/-- The index the C4 claim describes: the latest position in the
placed-fields list among the fields on the current page containing the
point, and -1 when there is none. -/
def topmostFieldIndexSpec (fields : List DField) (pageNum : Nat) (x y : ℚ) : Int :=
  match ((List.range fields.length).filter (hitAt fields pageNum x y)).getLast? with
  | some i => (i : Int)
  | none => -1

/-- Searching a filtered list from the back is searching the reversed list
for the conjunction of both predicates. -/
theorem find_rev_of_filter {α : Type} (l : List α) (p q : α → Bool) :
    (l.filter p).reverse.find? q = l.reverse.find? (fun a => p a && q a) := by
  rw [← List.filter_reverse, List.find?_filter]
  congr 1
  funext a
  by_cases hp : p a <;> by_cases hq : q a <;> simp [hp, hq]

/-- The first element of the reversed enumeration that is on the current
page and contains the point carries the greatest such index: its index is
the last element of the filtered index range. -/
theorem reverse_enum_find_fst (l : List DField) (pageNum : Nat) (x y : ℚ) :
    (l.enum.reverse.find? (fun p =>
        decide ((p.2.page : Int) = (pageNum : Int) - 1) &&
          isPointInField x y p.2)).map Prod.fst =
      ((List.range l.length).filter (hitAt l pageNum x y)).getLast? := by
  induction l using List.reverseRecOn with
  | nil => rfl
  | append_singleton l a ih =>
    have henum : (l ++ [a]).enum.reverse = (l.length, a) :: l.enum.reverse := by
      rw [List.enum_append]
      have h1 : List.enumFrom l.length [a] = [(l.length, a)] := rfl
      rw [h1, List.reverse_append]
      rfl
    have hlen : (l ++ [a]).length = l.length + 1 := by simp
    have hfe : ∀ i ∈ List.range l.length,
        hitAt (l ++ [a]) pageNum x y i = hitAt l pageNum x y i := by
      intro i hi
      rw [List.mem_range] at hi
      rw [hitAt, hitAt, List.getElem?_append_left hi]
    have hga : (l ++ [a])[l.length]? = some a := List.getElem?_concat_length l a
    have hhit : hitAt (l ++ [a]) pageNum x y l.length =
        (decide ((a.page : Int) = (pageNum : Int) - 1) && isPointInField x y a) := by
      rw [hitAt, hga]
    rw [henum, hlen, List.range_succ, List.filter_append, List.filter_congr hfe,
      List.find?_cons]
    cases hpa : (decide ((a.page : Int) = (pageNum : Int) - 1) && isPointInField x y a) with
    | true =>
      have hfa : List.filter (hitAt (l ++ [a]) pageNum x y) [l.length] = [l.length] := by
        simp only [List.filter, hhit, hpa]
      rw [hfa, List.getLast?_concat]
      rfl
    | false =>
      have hfa : List.filter (hitAt (l ++ [a]) pageNum x y) [l.length] = [] := by
        simp only [List.filter, hhit, hpa]
      rw [hfa, List.append_nil]
      exact ih

/-- C4: getFieldAtPosition resolves overlapping fields by z-order.  For
every click point it returns the index of the field occurring latest in
the placed-fields list among the fields on the current page containing the
point, and -1 when no field on the current page contains the point. -/
theorem c4_topmost_field_wins (placedFields : List DField) (pageNum : Nat) (x y : ℚ) :
    getFieldAtPosition placedFields pageNum x y =
      topmostFieldIndexSpec placedFields pageNum x y := by
  have hkey := reverse_enum_find_fst placedFields pageNum x y
  simp only [getFieldAtPosition, topmostFieldIndexSpec]
  rw [find_rev_of_filter, ← hkey]
  cases placedFields.enum.reverse.find?
      (fun p => decide ((p.2.page : Int) = (pageNum : Int) - 1) &&
        isPointInField x y p.2) with
  | none => rfl
  | some p => rfl

/-! Concrete evaluations of the embedded operations (sanity checks). -/

example :
    getFieldAtPosition
      [{ type := "text", name := "bottom", x := 0, y := 0, width := 100, height := 100,
         page := 0, required := false, readonly := false, fontSize := 12, selected := false },
       { type := "text", name := "top", x := 0, y := 0, width := 100, height := 100,
         page := 0, required := false, readonly := false, fontSize := 12, selected := false }]
      1 50 50 = 1 := by
  norm_num [getFieldAtPosition, isPointInField, List.enum, List.enumFrom]

example :
    getFieldAtPosition
      [{ type := "text", name := "elsewhere", x := 200, y := 200, width := 10, height := 10,
         page := 0, required := false, readonly := false, fontSize := 12, selected := false }]
      1 50 50 = -1 := by decide

example :
    topmostFieldIndexSpec
      [{ type := "text", name := "bottom", x := 0, y := 0, width := 100, height := 100,
         page := 0, required := false, readonly := false, fontSize := 12, selected := false },
       { type := "text", name := "top", x := 0, y := 0, width := 100, height := 100,
         page := 0, required := false, readonly := false, fontSize := 12, selected := false }]
      1 50 50 = 1 := by
  norm_num [topmostFieldIndexSpec, hitAt, isPointInField, List.range_succ]

example :
    collectFormValues
      [("name", some { type := "text", checked := false, value := "Ada", dataURL := "" }),
       ("agree", some { type := "checkbox", checked := true, value := "on", dataURL := "" }),
       ("sig", some { type := "signature", checked := false, value := "", dataURL := "dataPNG" }),
       ("ghost", none)] =
      [("name", FormValue.s "Ada"), ("agree", FormValue.b true),
       ("sig", FormValue.s "dataPNG")] := by decide
